import Mathlib

/-!
Verification of the MPSL FEM protocol API
(`drivers/nrf_802154/sl/sl_opensource/include/protocol/mpsl_fem_protocol_api.h`).

The repository ships only the header: declarations, documented return values
and contracts. The behaviour of the operations (the activation scheduler, the
channel binding registry, the abort controller, the power split calculator and
the lifecycle controller) is therefore modelled from the design specification;
every such definition carries a doc comment starting `Modelled from the spec:`.
The enumeration constants and data shapes are taken directly from the header.
-/

/-- Functionality flag value `MPSL_FEM_PA = 1 << 0` from `mpsl_fem_functionality_t`. -/
def MPSL_FEM_PA : Nat := 1 <<< 0

/-- Functionality flag value `MPSL_FEM_LNA = 1 << 1` from `mpsl_fem_functionality_t`. -/
def MPSL_FEM_LNA : Nat := 1 <<< 1

/-- Functionality flag value `MPSL_FEM_ALL = MPSL_FEM_PA | MPSL_FEM_LNA`. -/
def MPSL_FEM_ALL : Nat := MPSL_FEM_PA ||| MPSL_FEM_LNA

/-- Mask denoting a subset of the functionalities PA and LNA, as the bitwise
or of the flags of its members (from the combinable enum in the header). -/
def maskOfSet (paIn lnaIn : Bool) : Nat :=
  (if paIn then MPSL_FEM_PA else 0) ||| (if lnaIn then MPSL_FEM_LNA else 0)

/-- The two FEM functionalities (PA and LNA) addressed by configuration calls. -/
inductive Functionality
  | pa
  | lna
deriving DecidableEq

/-- Tags of entries of the Channel Binding Registry: an entry is allocated for
PA, for LNA, or for the abort path. -/
inductive Tag
  | pa
  | lna
  | abortPath
deriving DecidableEq

/-- Registry tag corresponding to a functionality. -/
def Functionality.tag : Functionality → Tag
  | .pa => Tag.pa
  | .lna => Tag.lna

/-- FEM event descriptor, the shallow embedding of `mpsl_fem_event_t`: a tagged
union of a timer deadline (timer instance reference, `counter_period.start`,
`counter_period.end`, `compare_channel_mask`) and a generic subscribable
hardware event. The timer instance pointer is modelled as `Option Nat` so that
a missing reference (null pointer) is expressible. -/
inductive mpsl_fem_event_t
  | timerDeadline (timerRef : Option Nat) (startv endv : Nat) (compareChannelMask : Nat)
  | genericSignal (event : Nat)
deriving DecidableEq

/-- Modelled from the spec: structural validity of an event descriptor, used by
the activation scheduler (whose implementation is absent from the repository)
to report `InvalidConfiguration` when required fields — timer reference,
compare channel availability, counter window — are missing or inconsistent. -/
def eventValid : mpsl_fem_event_t → Bool
  | .timerDeadline timerRef startv endv mask =>
      timerRef.isSome && decide (startv ≤ endv) && decide (mask ≠ 0)
  | .genericSignal _ => true

/-- Error taxonomy of the module, modelled from the spec: `PermissionDenied`
(returned as `-NRF_EPERM`), `InvalidConfiguration` (returned as `-NRF_EINVAL`),
and `OutOfRange` (power split request outside achievable bounds, non-fatal). -/
inductive FemError
  | permissionDenied
  | invalidConfiguration
  | outOfRange
deriving DecidableEq

/-- An entry of the Channel Binding Registry: a hardware channel binding for
the given event, tagged with the functionality (or abort path) it serves. -/
structure RegEntry where
  tag : Tag
  event : mpsl_fem_event_t
deriving DecidableEq

/-- State of the abort path: `unset`, or `set` with the installed trigger
event, the bound (D)PPI group and the group's current channel membership. -/
inductive AbortState
  | unset
  | set (trigger : Nat) (group : Nat) (channels : List Nat)
deriving DecidableEq

/-- Modelled from the spec: the module state of the FEM protocol interface
(the implementation behind the header is absent from the repository). The
`timerStarted` field models the caller-owned timer's start/stop state; it is
carried only to express that the module's operations never touch it. -/
structure FemState where
  enabled : Bool
  registry : List RegEntry
  abortSt : AbortState
  paGain : Int
  timerStarted : Bool
deriving DecidableEq

/-- The channel membership of the abort path group (`[]` when unset). -/
def abortChannels (s : FemState) : List Nat :=
  match s.abortSt with
  | AbortState.unset => []
  | AbortState.set _ _ chans => chans

/-- Set-insertion of a channel into a group membership list. -/
def insertChan (ch : Nat) (chans : List Nat) : List Nat :=
  if ch ∈ chans then chans else chans ++ [ch]

/-- Components of the TX power, the shallow embedding of
`mpsl_tx_power_split_t`: power applied to the RADIO peripheral and gain of the
Front-End Module. -/
structure TxPowerSplit where
  radio_tx_power : Int
  fem_gain : Int
deriving DecidableEq

/-- Total over-the-air power of a split: radio-stage power plus FEM gain. -/
def TxPowerSplit.total (c : TxPowerSplit) : Int :=
  c.radio_tx_power + c.fem_gain

/-- The combination with the largest total among `acc` and the list. -/
def maxByTotal (acc : TxPowerSplit) : List TxPowerSplit → TxPowerSplit
  | [] => acc
  | x :: xs => maxByTotal (if acc.total < x.total then x else acc) xs

/-- The combination with the smallest total among `acc` and the list. -/
def minByTotal (acc : TxPowerSplit) : List TxPowerSplit → TxPowerSplit
  | [] => acc
  | x :: xs => minByTotal (if x.total < acc.total then x else acc) xs

/-- Modelled from the spec: the power split calculator behind
`mpsl_fem_tx_power_split` (its implementation and the concrete hardware
profile are absent from the repository). Given the profile's list of
achievable `(radio_tx_power, fem_gain)` combinations, it selects the
combination whose total is closest to the requested power without exceeding
it; above the maximum achievable total it returns the maximum combination with
`OutOfRange`, below the minimum it returns the minimum combination with
`OutOfRange`. -/
def split_power (profile : List TxPowerSplit) (power : Int) :
    TxPowerSplit × Except FemError Unit :=
  match profile with
  | [] => (⟨0, 0⟩, Except.error FemError.invalidConfiguration)
  | c :: rest =>
    if (maxByTotal c rest).total < power then
      (maxByTotal c rest, Except.error FemError.outOfRange)
    else if power < (minByTotal c rest).total then
      (minByTotal c rest, Except.error FemError.outOfRange)
    else
      (maxByTotal (minByTotal c rest) ((c :: rest).filter fun x => decide (x.total ≤ power)),
       Except.ok ())

/-- Modelled from the spec: `mpsl_fem_tx_power_split` as a module operation —
a pure wrapper around `split_power` that leaves the module state untouched. -/
def mpsl_fem_tx_power_split (profile : List TxPowerSplit) (power : Int)
    (s : FemState) : (TxPowerSplit × Except FemError Unit) × FemState :=
  (split_power profile power, s)

theorem maxByTotal_le (acc : TxPowerSplit) (xs : List TxPowerSplit) :
    acc.total ≤ (maxByTotal acc xs).total := by
  induction xs generalizing acc with
  | nil => exact le_refl _
  | cons x xs ih =>
    simp only [maxByTotal]
    refine le_trans ?_ (ih _)
    split
    · exact le_of_lt (by assumption)
    · exact le_refl _

theorem maxByTotal_mem (acc : TxPowerSplit) (xs : List TxPowerSplit) :
    maxByTotal acc xs = acc ∨ maxByTotal acc xs ∈ xs := by
  induction xs generalizing acc with
  | nil => exact Or.inl rfl
  | cons x xs ih =>
    simp only [maxByTotal]
    rcases ih (if acc.total < x.total then x else acc) with h | h
    · rw [h]
      split
      · exact Or.inr (List.mem_cons_self _ _)
      · exact Or.inl rfl
    · exact Or.inr (List.mem_cons_of_mem _ h)

theorem maxByTotal_ge_mem (acc : TxPowerSplit) (xs : List TxPowerSplit) :
    ∀ x ∈ xs, x.total ≤ (maxByTotal acc xs).total := by
  induction xs generalizing acc with
  | nil => intro x hx; cases hx
  | cons y ys ih =>
    intro x hx
    simp only [maxByTotal]
    rcases List.mem_cons.mp hx with h | h
    · subst h
      refine le_trans ?_ (maxByTotal_le _ _)
      split
      · exact le_refl _
      · exact le_of_not_lt (by assumption)
    · exact ih _ x h

theorem minByTotal_le (acc : TxPowerSplit) (xs : List TxPowerSplit) :
    (minByTotal acc xs).total ≤ acc.total := by
  induction xs generalizing acc with
  | nil => exact le_refl _
  | cons x xs ih =>
    simp only [minByTotal]
    refine le_trans (ih _) ?_
    split
    · exact le_of_lt (by assumption)
    · exact le_refl _

theorem minByTotal_mem (acc : TxPowerSplit) (xs : List TxPowerSplit) :
    minByTotal acc xs = acc ∨ minByTotal acc xs ∈ xs := by
  induction xs generalizing acc with
  | nil => exact Or.inl rfl
  | cons x xs ih =>
    simp only [minByTotal]
    rcases ih (if x.total < acc.total then x else acc) with h | h
    · rw [h]
      split
      · exact Or.inr (List.mem_cons_self _ _)
      · exact Or.inl rfl
    · exact Or.inr (List.mem_cons_of_mem _ h)

theorem minByTotal_le_mem (acc : TxPowerSplit) (xs : List TxPowerSplit) :
    ∀ x ∈ xs, (minByTotal acc xs).total ≤ x.total := by
  induction xs generalizing acc with
  | nil => intro x hx; cases hx
  | cons y ys ih =>
    intro x hx
    simp only [minByTotal]
    rcases List.mem_cons.mp hx with h | h
    · subst h
      refine le_trans (minByTotal_le _ _) ?_
      split
      · exact le_refl _
      · exact le_of_not_lt (by assumption)
    · exact ih _ x h

/-- Modelled from the spec: the activation scheduler behind
`mpsl_fem_pa_configuration_set` and `mpsl_fem_lna_configuration_set` (their
implementation is absent from the repository). When the functionality is
disabled it reports `PermissionDenied` and changes nothing; with invalid or
missing configuration parameters it reports `InvalidConfiguration`; otherwise
it allocates one registry entry per bound event, tagged with the
functionality, accumulating additively into the existing wiring. -/
def configuration_set (f : Functionality) (p_activate_event p_deactivate_event : mpsl_fem_event_t)
    (s : FemState) : Except FemError Unit × FemState :=
  if s.enabled = false then
    (Except.error FemError.permissionDenied, s)
  else if eventValid p_activate_event = false ∨ eventValid p_deactivate_event = false then
    (Except.error FemError.invalidConfiguration, s)
  else
    (Except.ok (),
     { s with registry := s.registry ++ [⟨f.tag, p_activate_event⟩, ⟨f.tag, p_deactivate_event⟩] })

/-- `mpsl_fem_pa_configuration_set`, the PA instance of the scheduler. -/
def mpsl_fem_pa_configuration_set := configuration_set Functionality.pa

/-- `mpsl_fem_lna_configuration_set`, the LNA instance of the scheduler. -/
def mpsl_fem_lna_configuration_set := configuration_set Functionality.lna

/-- Modelled from the spec: the configuration purge behind
`mpsl_fem_pa_configuration_clear` and `mpsl_fem_lna_configuration_clear`.
`PermissionDenied` when the functionality is disabled; otherwise it releases
exactly the registry entries tagged with the functionality. -/
def configuration_clear (f : Functionality) (s : FemState) : Except FemError Unit × FemState :=
  if s.enabled = false then
    (Except.error FemError.permissionDenied, s)
  else
    (Except.ok (),
     { s with registry := s.registry.filter fun e => decide (e.tag ≠ f.tag) })

/-- `mpsl_fem_pa_configuration_clear`, the PA instance of the purge. -/
def mpsl_fem_pa_configuration_clear := configuration_clear Functionality.pa

/-- `mpsl_fem_lna_configuration_clear`, the LNA instance of the purge. -/
def mpsl_fem_lna_configuration_clear := configuration_clear Functionality.lna

/-- Modelled from the spec: `mpsl_fem_abort_set`. In `Unset` state it installs
the trigger-to-group binding (allocating an abort-tagged registry entry) and
transitions to `Set`; when a binding is already installed it fails with
`PermissionDenied` rather than silently overwriting. -/
def mpsl_fem_abort_set (event group : Nat) (s : FemState) : Except FemError Unit × FemState :=
  match s.abortSt with
  | AbortState.unset =>
      (Except.ok (),
       { s with abortSt := AbortState.set event group [],
                registry := s.registry ++ [⟨Tag.abortPath, mpsl_fem_event_t.genericSignal event⟩] })
  | AbortState.set _ _ _ => (Except.error FemError.permissionDenied, s)

/-- Modelled from the spec: `mpsl_fem_abort_extend`. Valid only in `Set` state
with a matching group; adds the channel to the group membership. -/
def mpsl_fem_abort_extend (channel_to_add group : Nat) (s : FemState) :
    Except FemError Unit × FemState :=
  match s.abortSt with
  | AbortState.unset => (Except.error FemError.permissionDenied, s)
  | AbortState.set tr g chans =>
      if g = group then
        (Except.ok (), { s with abortSt := AbortState.set tr g (insertChan channel_to_add chans) })
      else
        (Except.error FemError.permissionDenied, s)

/-- Modelled from the spec: `mpsl_fem_abort_reduce`. Valid only in `Set` state
with a matching group and a channel that is a member; removes the channel. -/
def mpsl_fem_abort_reduce (channel_to_remove group : Nat) (s : FemState) :
    Except FemError Unit × FemState :=
  match s.abortSt with
  | AbortState.unset => (Except.error FemError.permissionDenied, s)
  | AbortState.set tr g chans =>
      if g = group ∧ channel_to_remove ∈ chans then
        (Except.ok (), { s with abortSt := AbortState.set tr g (chans.erase channel_to_remove) })
      else
        (Except.error FemError.permissionDenied, s)

/-- Modelled from the spec: `mpsl_fem_abort_clear`. Transitions `Set` to
`Unset`, tearing down the trigger-to-group binding and releasing the
abort-tagged registry entries; `PermissionDenied` when already `Unset`. -/
def mpsl_fem_abort_clear (s : FemState) : Except FemError Unit × FemState :=
  match s.abortSt with
  | AbortState.unset => (Except.error FemError.permissionDenied, s)
  | AbortState.set _ _ _ =>
      (Except.ok (),
       { s with abortSt := AbortState.unset,
                registry := s.registry.filter fun e => decide (e.tag ≠ Tag.abortPath) })

/-- Whether PA or LNA currently has active (uncleared) configuration: the
registry holds an entry tagged with a functionality. -/
def hasActiveConfig (s : FemState) : Bool :=
  s.registry.any fun e => decide (e.tag ≠ Tag.abortPath)

/-- Modelled from the spec: `mpsl_fem_disable`, the global off switch. Fails
with `PermissionDenied` (`-NRF_EPERM`, "FEM is configured to enable PA or
LNA") while either functionality has uncleared configuration; otherwise it
synchronously marks the module disabled. -/
def mpsl_fem_disable (s : FemState) : Except FemError Unit × FemState :=
  if hasActiveConfig s = true then
    (Except.error FemError.permissionDenied, s)
  else
    (Except.ok (), { s with enabled := false })

/-- Modelled from the spec: `mpsl_fem_cleanup`. Always succeeds; resets every
hardware resource allocated by the activation scheduler and the abort
controller (the whole registry and the abort binding) while keeping the
logical configuration parameters, such as the PA gain, untouched. -/
def mpsl_fem_cleanup (s : FemState) : FemState :=
  { s with registry := [], abortSt := AbortState.unset }

/-- Modelled from the spec: validity of a PA gain value for the hardware
profile; `mpsl_fem_pa_gain_set` rejects an invalid gain with `-NRF_EINVAL`. -/
def gainValid (profile : List TxPowerSplit) (gain : Int) : Bool :=
  profile.any fun c => decide (c.fem_gain = gain)

/-- Modelled from the spec: `mpsl_fem_pa_gain_set`, the functionality-level
setter of the PA gain applied to future transmissions. -/
def mpsl_fem_pa_gain_set (profile : List TxPowerSplit) (gain : Int) (s : FemState) :
    Except FemError Unit × FemState :=
  if gainValid profile gain = true then
    (Except.ok (), { s with paGain := gain })
  else
    (Except.error FemError.invalidConfiguration, s)

/-- The state-mutating operations of the protocol API, used to express that no
operation of the interface re-enables a disabled module. -/
inductive FemOp
  | configSet (f : Functionality) (a d : mpsl_fem_event_t)
  | configClear (f : Functionality)
  | abortSet (ev g : Nat)
  | abortExtend (ch g : Nat)
  | abortReduce (ch g : Nat)
  | abortClear
  | disable
  | cleanup
  | gainSet (profile : List TxPowerSplit) (g : Int)

/-- The state transition of a protocol API operation. -/
def applyOp (op : FemOp) (s : FemState) : FemState :=
  match op with
  | FemOp.configSet f a d => (configuration_set f a d s).2
  | FemOp.configClear f => (configuration_clear f s).2
  | FemOp.abortSet ev g => (mpsl_fem_abort_set ev g s).2
  | FemOp.abortExtend ch g => (mpsl_fem_abort_extend ch g s).2
  | FemOp.abortReduce ch g => (mpsl_fem_abort_reduce ch g s).2
  | FemOp.abortClear => (mpsl_fem_abort_clear s).2
  | FemOp.disable => (mpsl_fem_disable s).2
  | FemOp.cleanup => mpsl_fem_cleanup s
  | FemOp.gainSet profile g => (mpsl_fem_pa_gain_set profile g s).2

theorem applyOp_enabled_le (op : FemOp) (s : FemState) (h : s.enabled = false) :
    (applyOp op s).enabled = false := by
  cases op
  all_goals
    simp only [applyOp, configuration_set, configuration_clear, mpsl_fem_abort_set,
      mpsl_fem_abort_extend, mpsl_fem_abort_reduce, mpsl_fem_abort_clear,
      mpsl_fem_disable, mpsl_fem_cleanup, mpsl_fem_pa_gain_set]
  all_goals
    first
      | (split <;> (try split) <;> simp_all)
      | simp_all

theorem foldl_applyOp_enabled (ops : List FemOp) (s : FemState) (h : s.enabled = false) :
    (ops.foldl (fun st op => applyOp op st) s).enabled = false := by
  induction ops generalizing s with
  | nil => exact h
  | cons op ops ih => exact ih _ (applyOp_enabled_le op s h)

theorem configuration_set_disabled_aux (f : Functionality)
    (a d : mpsl_fem_event_t) (s : FemState) (h : s.enabled = false) :
    (configuration_set f a d s).1 = Except.error FemError.permissionDenied ∧
    (configuration_set f a d s).2 = s := by
  simp [configuration_set, h]

theorem configuration_set_ok_aux (f : Functionality) (a d : mpsl_fem_event_t) (s : FemState)
    (h : (configuration_set f a d s).1 = Except.ok ()) :
    (configuration_set f a d s).2 =
      { s with registry := s.registry ++ [⟨f.tag, a⟩, ⟨f.tag, d⟩] } := by
  unfold configuration_set at h ⊢
  split_ifs at h ⊢ <;> simp_all

theorem filter_comm_entries (l : List RegEntry) (p q : RegEntry → Bool)
    (h : ∀ e, q e = true → p e = true) :
    (l.filter p).filter q = l.filter q := by
  induction l with
  | nil => rfl
  | cons e l ih =>
    by_cases hq : q e = true
    · rw [List.filter_cons, if_pos (h e hq), List.filter_cons, if_pos hq,
        List.filter_cons, if_pos hq, ih]
    · by_cases hp : p e = true
      · rw [List.filter_cons, if_pos hp, List.filter_cons, if_neg hq,
          List.filter_cons, if_neg hq, ih]
      · rw [List.filter_cons, if_neg hp, List.filter_cons, if_neg hq, ih]

theorem filter_tag_of_ne (l : List RegEntry) (ft t : Tag) (h : t ≠ ft) :
    ((l.filter fun e => decide (e.tag ≠ ft)).filter fun e => decide (e.tag = t)) =
      l.filter fun e => decide (e.tag = t) :=
  filter_comm_entries l _ _ (fun e he => by
    simp only [decide_eq_true_eq] at he
    simp only [decide_eq_true_eq]
    rw [he]
    exact h)

theorem any_false_filter_nil (l : List RegEntry) (p : RegEntry → Bool) (h : l.any p = false) :
    l.filter p = [] := by
  induction l with
  | nil => rfl
  | cons e l ih =>
    simp only [List.any_cons, Bool.or_eq_false_iff] at h
    simp [List.filter_cons, h.1, ih h.2]

/-- Sample starting state: module enabled, empty registry, abort path unset. -/
def initState : FemState :=
  { enabled := true, registry := [], abortSt := AbortState.unset, paGain := 0,
    timerStarted := false }

/-- Sample state of a disabled module. -/
def disabledState : FemState :=
  { enabled := false, registry := [], abortSt := AbortState.unset, paGain := 0,
    timerStarted := false }

/-- Sample valid activation event (timer deadline). -/
def evA : mpsl_fem_event_t := mpsl_fem_event_t.timerDeadline (some 1) 100 200 3

/-- Sample valid deactivation event (generic hardware signal). -/
def evD : mpsl_fem_event_t := mpsl_fem_event_t.genericSignal 42

/-- Sample state with the abort path set for group 7 with member channel 4. -/
def abortSetState : FemState :=
  { enabled := true,
    registry := [⟨Tag.abortPath, mpsl_fem_event_t.genericSignal 3⟩],
    abortSt := AbortState.set 3 7 [4], paGain := 0, timerStarted := false }

/-- Sample state with a mixed registry: one PA entry, one LNA entry, one abort entry. -/
def mixedState : FemState :=
  { enabled := true,
    registry := [⟨Tag.pa, evA⟩, ⟨Tag.lna, evA⟩, ⟨Tag.abortPath, evD⟩],
    abortSt := AbortState.set 3 7 [4], paGain := 5, timerStarted := true }

/-- Claim C1: for every requested power within the achievable range, the power
split operation succeeds and returns a combination drawn from the hardware
profile whose total is the closest value to the requested power that does not
exceed it (less total power is preferred over exceeding the request). -/
theorem split_power_in_range_best (c : TxPowerSplit) (rest : List TxPowerSplit) (power : Int)
    (hmin : (minByTotal c rest).total ≤ power)
    (hmax : power ≤ (maxByTotal c rest).total) :
    (split_power (c :: rest) power).2 = Except.ok () ∧
    (split_power (c :: rest) power).1 ∈ c :: rest ∧
    (split_power (c :: rest) power).1.total ≤ power ∧
    ∀ x ∈ c :: rest, x.total ≤ power →
      x.total ≤ (split_power (c :: rest) power).1.total := by
  have hnotmax : ¬ (maxByTotal c rest).total < power := not_lt.mpr hmax
  have hnotmin : ¬ power < (minByTotal c rest).total := not_lt.mpr hmin
  simp only [split_power, if_neg hnotmax, if_neg hnotmin]
  refine ⟨by trivial, ?_, ?_, ?_⟩
  · rcases maxByTotal_mem (minByTotal c rest)
        ((c :: rest).filter fun x => decide (x.total ≤ power)) with h | h
    · rw [h]
      rcases minByTotal_mem c rest with h2 | h2
      · rw [h2]; exact List.mem_cons_self _ _
      · exact List.mem_cons_of_mem _ h2
    · exact (List.mem_filter.mp h).1
  · rcases maxByTotal_mem (minByTotal c rest)
        ((c :: rest).filter fun x => decide (x.total ≤ power)) with h | h
    · rw [h]; exact hmin
    · exact of_decide_eq_true (List.mem_filter.mp h).2
  · intro x hx hxp
    exact maxByTotal_ge_mem _ _ x (List.mem_filter.mpr ⟨hx, decide_eq_true hxp⟩)

/-- Claim C1 witness: at requested power 7 over a concrete profile with
achievable totals 10, 6, 2 and 20, the calculator succeeds and returns the
combination of total 6, the closest achievable value not exceeding 7. -/
theorem split_power_in_range_best_witness :
    (split_power (⟨0, 10⟩ :: [⟨-4, 10⟩, ⟨-8, 10⟩, ⟨0, 20⟩]) 7).2 = Except.ok () ∧
    (split_power (⟨0, 10⟩ :: [⟨-4, 10⟩, ⟨-8, 10⟩, ⟨0, 20⟩]) 7).1 ∈
      (⟨0, 10⟩ : TxPowerSplit) :: [⟨-4, 10⟩, ⟨-8, 10⟩, ⟨0, 20⟩] ∧
    (split_power (⟨0, 10⟩ :: [⟨-4, 10⟩, ⟨-8, 10⟩, ⟨0, 20⟩]) 7).1.total ≤ 7 ∧
    ∀ x ∈ (⟨0, 10⟩ : TxPowerSplit) :: [⟨-4, 10⟩, ⟨-8, 10⟩, ⟨0, 20⟩], x.total ≤ 7 →
      x.total ≤ (split_power (⟨0, 10⟩ :: [⟨-4, 10⟩, ⟨-8, 10⟩, ⟨0, 20⟩]) 7).1.total :=
  split_power_in_range_best ⟨0, 10⟩ [⟨-4, 10⟩, ⟨-8, 10⟩, ⟨0, 20⟩] 7
    (by decide) (by decide)

/-- Claim C2: above the maximum achievable total the calculator returns the
maximum achievable split with the `OutOfRange` error; below the minimum it
returns the minimum achievable split with `OutOfRange`; in both cases the
returned split is an achievable combination of the profile, and `OutOfRange`
is distinct from `InvalidConfiguration`. -/
theorem split_power_out_of_range (c : TxPowerSplit) (rest : List TxPowerSplit) (power : Int) :
    ((maxByTotal c rest).total < power →
      (split_power (c :: rest) power).1 = maxByTotal c rest ∧
      (split_power (c :: rest) power).2 = Except.error FemError.outOfRange ∧
      (split_power (c :: rest) power).1 ∈ c :: rest ∧
      ∀ x ∈ c :: rest, x.total ≤ (split_power (c :: rest) power).1.total) ∧
    (power < (minByTotal c rest).total →
      (split_power (c :: rest) power).1 = minByTotal c rest ∧
      (split_power (c :: rest) power).2 = Except.error FemError.outOfRange ∧
      (split_power (c :: rest) power).1 ∈ c :: rest ∧
      ∀ x ∈ c :: rest, (split_power (c :: rest) power).1.total ≤ x.total) ∧
    FemError.outOfRange ≠ FemError.invalidConfiguration := by
  refine ⟨?_, ?_, by decide⟩
  · intro h
    simp only [split_power, if_pos h]
    refine ⟨by trivial, by trivial, ?_, ?_⟩
    · rcases maxByTotal_mem c rest with h2 | h2
      · rw [h2]; exact List.mem_cons_self _ _
      · exact List.mem_cons_of_mem _ h2
    · intro x hx
      rcases List.mem_cons.mp hx with h2 | h2
      · rw [h2]; exact maxByTotal_le c rest
      · exact maxByTotal_ge_mem c rest x h2
  · intro h
    have hle : (minByTotal c rest).total ≤ (maxByTotal c rest).total :=
      le_trans (minByTotal_le c rest) (maxByTotal_le c rest)
    have hnotmax : ¬ (maxByTotal c rest).total < power :=
      not_lt.mpr (le_of_lt (lt_of_lt_of_le h hle))
    simp only [split_power, if_neg hnotmax, if_pos h]
    refine ⟨by trivial, by trivial, ?_, ?_⟩
    · rcases minByTotal_mem c rest with h2 | h2
      · rw [h2]; exact List.mem_cons_self _ _
      · exact List.mem_cons_of_mem _ h2
    · intro x hx
      rcases List.mem_cons.mp hx with h2 | h2
      · rw [h2]; exact minByTotal_le c rest
      · exact minByTotal_le_mem c rest x h2

/-- Claim C2 witness: over a concrete profile with totals between 2 and 20,
requesting 21 yields the maximum split with `OutOfRange` and requesting 1
yields the minimum split with `OutOfRange`. -/
theorem split_power_out_of_range_witness :
    ((split_power (⟨0, 10⟩ :: [⟨-4, 10⟩, ⟨-8, 10⟩, ⟨0, 20⟩]) 21).1 =
        maxByTotal ⟨0, 10⟩ [⟨-4, 10⟩, ⟨-8, 10⟩, ⟨0, 20⟩] ∧
      (split_power (⟨0, 10⟩ :: [⟨-4, 10⟩, ⟨-8, 10⟩, ⟨0, 20⟩]) 21).2 =
        Except.error FemError.outOfRange ∧
      (split_power (⟨0, 10⟩ :: [⟨-4, 10⟩, ⟨-8, 10⟩, ⟨0, 20⟩]) 21).1 ∈
        (⟨0, 10⟩ : TxPowerSplit) :: [⟨-4, 10⟩, ⟨-8, 10⟩, ⟨0, 20⟩] ∧
      ∀ x ∈ (⟨0, 10⟩ : TxPowerSplit) :: [⟨-4, 10⟩, ⟨-8, 10⟩, ⟨0, 20⟩],
        x.total ≤ (split_power (⟨0, 10⟩ :: [⟨-4, 10⟩, ⟨-8, 10⟩, ⟨0, 20⟩]) 21).1.total) ∧
    ((split_power (⟨0, 10⟩ :: [⟨-4, 10⟩, ⟨-8, 10⟩, ⟨0, 20⟩]) 1).1 =
        minByTotal ⟨0, 10⟩ [⟨-4, 10⟩, ⟨-8, 10⟩, ⟨0, 20⟩] ∧
      (split_power (⟨0, 10⟩ :: [⟨-4, 10⟩, ⟨-8, 10⟩, ⟨0, 20⟩]) 1).2 =
        Except.error FemError.outOfRange ∧
      (split_power (⟨0, 10⟩ :: [⟨-4, 10⟩, ⟨-8, 10⟩, ⟨0, 20⟩]) 1).1 ∈
        (⟨0, 10⟩ : TxPowerSplit) :: [⟨-4, 10⟩, ⟨-8, 10⟩, ⟨0, 20⟩] ∧
      ∀ x ∈ (⟨0, 10⟩ : TxPowerSplit) :: [⟨-4, 10⟩, ⟨-8, 10⟩, ⟨0, 20⟩],
        (split_power (⟨0, 10⟩ :: [⟨-4, 10⟩, ⟨-8, 10⟩, ⟨0, 20⟩]) 1).1.total ≤ x.total) :=
  ⟨(split_power_out_of_range ⟨0, 10⟩ [⟨-4, 10⟩, ⟨-8, 10⟩, ⟨0, 20⟩] 21).1 (by decide),
   (split_power_out_of_range ⟨0, 10⟩ [⟨-4, 10⟩, ⟨-8, 10⟩, ⟨0, 20⟩] 1).2.1 (by decide)⟩

/-- Sample second activation event (timer deadline for a later window). -/
def evA2 : mpsl_fem_event_t := mpsl_fem_event_t.timerDeadline (some 1) 300 400 12

/-- Sample second deactivation event (another generic hardware signal). -/
def evD2 : mpsl_fem_event_t := mpsl_fem_event_t.genericSignal 43

/-- Claim C3: for both functionalities, a configuration call while the
functionality is disabled always returns `PermissionDenied` and allocates no
entries in the Channel Binding Registry. -/
theorem configuration_set_disabled_denied (f : Functionality) (a d : mpsl_fem_event_t)
    (s : FemState) (h : s.enabled = false) :
    (configuration_set f a d s).1 = Except.error FemError.permissionDenied ∧
    (configuration_set f a d s).2.registry = s.registry ∧
    (configuration_set f a d s).2 = s :=
  ⟨(configuration_set_disabled_aux f a d s h).1,
   by rw [(configuration_set_disabled_aux f a d s h).2],
   (configuration_set_disabled_aux f a d s h).2⟩

/-- Claim C3 witness: a PA configuration call on a concrete disabled module
state is denied and leaves the state untouched. -/
theorem configuration_set_disabled_denied_witness :
    disabledState.enabled = false ∧
    ((configuration_set Functionality.pa evA evD disabledState).1 =
        Except.error FemError.permissionDenied ∧
      (configuration_set Functionality.pa evA evD disabledState).2.registry =
        disabledState.registry ∧
      (configuration_set Functionality.pa evA evD disabledState).2 = disabledState) :=
  ⟨rfl, configuration_set_disabled_denied Functionality.pa evA evD disabledState rfl⟩

/-- Claim C4: two successful configuration calls for the same functionality
accumulate additively — the final registry is the initial registry extended by
the entries of both calls, so both binding sets are active simultaneously and
no prior binding is replaced. -/
theorem configuration_set_additive (f : Functionality) (a1 d1 a2 d2 : mpsl_fem_event_t)
    (s1 : FemState)
    (h1 : (configuration_set f a1 d1 s1).1 = Except.ok ())
    (h2 : (configuration_set f a2 d2 (configuration_set f a1 d1 s1).2).1 = Except.ok ()) :
    (configuration_set f a2 d2 (configuration_set f a1 d1 s1).2).2.registry =
      s1.registry ++ [⟨f.tag, a1⟩, ⟨f.tag, d1⟩, ⟨f.tag, a2⟩, ⟨f.tag, d2⟩] ∧
    (⟨f.tag, a1⟩ : RegEntry) ∈
      (configuration_set f a2 d2 (configuration_set f a1 d1 s1).2).2.registry ∧
    (⟨f.tag, d1⟩ : RegEntry) ∈
      (configuration_set f a2 d2 (configuration_set f a1 d1 s1).2).2.registry ∧
    (⟨f.tag, a2⟩ : RegEntry) ∈
      (configuration_set f a2 d2 (configuration_set f a1 d1 s1).2).2.registry ∧
    (⟨f.tag, d2⟩ : RegEntry) ∈
      (configuration_set f a2 d2 (configuration_set f a1 d1 s1).2).2.registry ∧
    ∀ e ∈ s1.registry,
      e ∈ (configuration_set f a2 d2 (configuration_set f a1 d1 s1).2).2.registry := by
  have e1 := configuration_set_ok_aux f a1 d1 s1 h1
  have e2 := configuration_set_ok_aux f a2 d2 _ h2
  rw [e2, e1]
  refine ⟨by simp, by simp, by simp, by simp, by simp, ?_⟩
  intro e he
  simp [he]

/-- Claim C4 witness: two concrete successful PA configuration calls starting
from the enabled empty state leave all four bound entries in the registry. -/
theorem configuration_set_additive_witness :
    (configuration_set Functionality.pa evA2 evD2
        (configuration_set Functionality.pa evA evD initState).2).2.registry =
      initState.registry ++
        [⟨Functionality.pa.tag, evA⟩, ⟨Functionality.pa.tag, evD⟩,
         ⟨Functionality.pa.tag, evA2⟩, ⟨Functionality.pa.tag, evD2⟩] ∧
    (⟨Functionality.pa.tag, evA⟩ : RegEntry) ∈
      (configuration_set Functionality.pa evA2 evD2
        (configuration_set Functionality.pa evA evD initState).2).2.registry ∧
    (⟨Functionality.pa.tag, evD⟩ : RegEntry) ∈
      (configuration_set Functionality.pa evA2 evD2
        (configuration_set Functionality.pa evA evD initState).2).2.registry ∧
    (⟨Functionality.pa.tag, evA2⟩ : RegEntry) ∈
      (configuration_set Functionality.pa evA2 evD2
        (configuration_set Functionality.pa evA evD initState).2).2.registry ∧
    (⟨Functionality.pa.tag, evD2⟩ : RegEntry) ∈
      (configuration_set Functionality.pa evA2 evD2
        (configuration_set Functionality.pa evA evD initState).2).2.registry ∧
    ∀ e ∈ initState.registry,
      e ∈ (configuration_set Functionality.pa evA2 evD2
        (configuration_set Functionality.pa evA evD initState).2).2.registry :=
  configuration_set_additive Functionality.pa evA evD evA2 evD2 initState rfl rfl

/-- Claim C5: the clear operation returns `PermissionDenied` when the
functionality is disabled; when enabled it releases exactly the registry
entries tagged with the functionality, leaves entries of the other tags (the
other functionality and the abort path) unchanged, and does not touch the
abort binding or the caller-owned timer's start/stop state. -/
theorem configuration_clear_frame (f : Functionality) (s : FemState) :
    (s.enabled = false →
      (configuration_clear f s).1 = Except.error FemError.permissionDenied ∧
      (configuration_clear f s).2 = s) ∧
    (s.enabled = true →
      (configuration_clear f s).1 = Except.ok () ∧
      (configuration_clear f s).2.registry =
        (s.registry.filter fun e => decide (e.tag ≠ f.tag)) ∧
      (∀ e ∈ (configuration_clear f s).2.registry, e.tag ≠ f.tag) ∧
      (∀ t, t ≠ f.tag →
        ((configuration_clear f s).2.registry.filter fun e => decide (e.tag = t)) =
          (s.registry.filter fun e => decide (e.tag = t))) ∧
      (configuration_clear f s).2.abortSt = s.abortSt ∧
      (configuration_clear f s).2.timerStarted = s.timerStarted) := by
  constructor
  · intro h
    simp [configuration_clear, h]
  · intro h
    have hne : ¬ s.enabled = false := by rw [h]; simp
    simp only [configuration_clear, if_neg hne]
    refine ⟨by trivial, by trivial, ?_, ?_, by trivial, by trivial⟩
    · intro e he
      exact of_decide_eq_true (List.mem_filter.mp he).2
    · intro t ht
      exact filter_tag_of_ne s.registry f.tag t ht

/-- Claim C5 witness: clearing PA on a concrete state whose registry holds one
PA, one LNA and one abort entry releases only the PA entry and preserves the
abort binding and the timer flag. -/
theorem configuration_clear_frame_witness :
    (configuration_clear Functionality.pa mixedState).1 = Except.ok () ∧
    (configuration_clear Functionality.pa mixedState).2.registry =
      (mixedState.registry.filter fun e => decide (e.tag ≠ Functionality.pa.tag)) ∧
    (∀ e ∈ (configuration_clear Functionality.pa mixedState).2.registry,
      e.tag ≠ Functionality.pa.tag) ∧
    (∀ t, t ≠ Functionality.pa.tag →
      ((configuration_clear Functionality.pa mixedState).2.registry.filter
          fun e => decide (e.tag = t)) =
        (mixedState.registry.filter fun e => decide (e.tag = t))) ∧
    (configuration_clear Functionality.pa mixedState).2.abortSt = mixedState.abortSt ∧
    (configuration_clear Functionality.pa mixedState).2.timerStarted =
      mixedState.timerStarted :=
  (configuration_clear_frame Functionality.pa mixedState).2 rfl

/-- Claim C6: the abort path is a state machine over unset/set. Extend, reduce
and clear fail with `PermissionDenied` in `Unset`; in `Set`, extend and reduce
fail on a group mismatch and succeed mutating the group membership on a match
(reduce additionally requires the channel to be a member); clear transitions
`Set` to `Unset` tearing down the trigger-to-group binding; a further
`abort_set` while set for a different group fails with `PermissionDenied`
rather than silently overwriting the binding. -/
theorem abort_controller_state_machine (s : FemState) (ev g ch tr g0 : Nat)
    (chans : List Nat) :
    (s.abortSt = AbortState.unset →
      (mpsl_fem_abort_extend ch g s).1 = Except.error FemError.permissionDenied ∧
      (mpsl_fem_abort_extend ch g s).2 = s ∧
      (mpsl_fem_abort_reduce ch g s).1 = Except.error FemError.permissionDenied ∧
      (mpsl_fem_abort_reduce ch g s).2 = s ∧
      (mpsl_fem_abort_clear s).1 = Except.error FemError.permissionDenied ∧
      (mpsl_fem_abort_clear s).2 = s) ∧
    (s.abortSt = AbortState.set tr g0 chans →
      (g0 ≠ g →
        (mpsl_fem_abort_extend ch g s).1 = Except.error FemError.permissionDenied ∧
        (mpsl_fem_abort_reduce ch g s).1 = Except.error FemError.permissionDenied ∧
        (mpsl_fem_abort_set ev g s).1 = Except.error FemError.permissionDenied) ∧
      (g0 = g →
        ((mpsl_fem_abort_extend ch g s).1 = Except.ok () ∧
         abortChannels (mpsl_fem_abort_extend ch g s).2 = insertChan ch chans) ∧
        (ch ∈ chans →
          (mpsl_fem_abort_reduce ch g s).1 = Except.ok () ∧
          abortChannels (mpsl_fem_abort_reduce ch g s).2 = chans.erase ch) ∧
        (ch ∉ chans →
          (mpsl_fem_abort_reduce ch g s).1 = Except.error FemError.permissionDenied)) ∧
      (mpsl_fem_abort_clear s).1 = Except.ok () ∧
      (mpsl_fem_abort_clear s).2.abortSt = AbortState.unset ∧
      (mpsl_fem_abort_clear s).2.registry =
        (s.registry.filter fun e => decide (e.tag ≠ Tag.abortPath))) := by
  constructor
  · intro h
    simp [mpsl_fem_abort_extend, mpsl_fem_abort_reduce, mpsl_fem_abort_clear, h]
  · intro h
    refine ⟨?_, ?_, ?_⟩
    · intro hne
      simp [mpsl_fem_abort_extend, mpsl_fem_abort_reduce, mpsl_fem_abort_set, h, hne]
    · intro heq
      subst heq
      refine ⟨?_, ?_, ?_⟩
      · simp [mpsl_fem_abort_extend, abortChannels, h]
      · intro hmem
        simp [mpsl_fem_abort_reduce, abortChannels, h, hmem]
      · intro hmem
        simp [mpsl_fem_abort_reduce, h, hmem]
    · simp [mpsl_fem_abort_clear, h]

/-- Claim C6 witness: on concrete states, extend is denied while unset,
extend and reduce succeed when set with the matching group, installing a
second different-group binding is denied, and clear succeeds. -/
theorem abort_controller_state_machine_witness :
    (mpsl_fem_abort_extend 5 7 initState).1 = Except.error FemError.permissionDenied ∧
    (mpsl_fem_abort_extend 5 7 abortSetState).1 = Except.ok () ∧
    (mpsl_fem_abort_reduce 4 7 abortSetState).1 = Except.ok () ∧
    (mpsl_fem_abort_set 9 8 abortSetState).1 = Except.error FemError.permissionDenied ∧
    (mpsl_fem_abort_clear abortSetState).1 = Except.ok () := by
  have hu := abort_controller_state_machine initState 9 7 5 0 0 []
  have hs := abort_controller_state_machine abortSetState 9 8 5 3 7 [4]
  have hs2 := abort_controller_state_machine abortSetState 9 7 5 3 7 [4]
  have hs3 := abort_controller_state_machine abortSetState 9 7 4 3 7 [4]
  refine ⟨(hu.1 rfl).1, ((hs2.2 rfl).2.1 rfl).1.1, ?_, ?_, ((hs2.2 rfl).2.2).1⟩
  · exact (((hs3.2 rfl).2.1 rfl).2.1 (by simp)).1
  · exact ((hs.2 rfl).1 (by decide)).2.2

/-- Claim C7: disable fails with `PermissionDenied` while PA or LNA has active
(uncleared) configuration and succeeds otherwise; a successful disable is a
synchronous state change after which no functionality-tagged entry is pending
and every subsequent configuration call — after any further sequence of
operations of the interface, none of which re-enables the module — fails with
`PermissionDenied`. -/
theorem disable_lifecycle (s : FemState) :
    (hasActiveConfig s = true →
      (mpsl_fem_disable s).1 = Except.error FemError.permissionDenied ∧
      (mpsl_fem_disable s).2 = s) ∧
    (hasActiveConfig s = false →
      (mpsl_fem_disable s).1 = Except.ok () ∧
      (mpsl_fem_disable s).2.enabled = false ∧
      ((mpsl_fem_disable s).2.registry.filter fun e => decide (e.tag ≠ Tag.abortPath)) = [] ∧
      ∀ ops : List FemOp, ∀ f a d,
        (configuration_set f a d
            (ops.foldl (fun st op => applyOp op st) (mpsl_fem_disable s).2)).1 =
          Except.error FemError.permissionDenied) := by
  constructor
  · intro h
    simp [mpsl_fem_disable, h]
  · intro h
    have hne : ¬ hasActiveConfig s = true := by rw [h]; simp
    simp only [mpsl_fem_disable, if_neg hne]
    refine ⟨by trivial, by trivial, ?_, ?_⟩
    · exact any_false_filter_nil s.registry _ h
    · intro ops f a d
      exact (configuration_set_disabled_aux f a d _
        (foldl_applyOp_enabled ops _ (by trivial))).1

/-- Claim C7 witness: disabling the module on a concrete state with no active
configuration succeeds, and an immediately following PA configuration call is
denied. -/
theorem disable_lifecycle_witness :
    hasActiveConfig initState = false ∧
    (mpsl_fem_disable initState).1 = Except.ok () ∧
    (mpsl_fem_disable initState).2.enabled = false ∧
    (configuration_set Functionality.pa evA evD (mpsl_fem_disable initState).2).1 =
      Except.error FemError.permissionDenied := by
  have h := (disable_lifecycle initState).2 rfl
  exact ⟨rfl, h.1, h.2.1, by simpa using h.2.2.2 [] Functionality.pa evA evD⟩

/-- Claim C8: cleanup is a total operation (it always succeeds and returns no
result); it releases every registry resource allocated by the activation
scheduler and the abort controller — the PA-tagged and LNA-tagged entry
counts drop to zero, the whole registry empties and the abort binding is torn
down — while the logical configuration parameters set by functionality-level
setters, such as the PA gain, are left unchanged. -/
theorem cleanup_releases_resources (s : FemState) :
    ((mpsl_fem_cleanup s).registry.countP fun e => decide (e.tag = Tag.pa)) = 0 ∧
    ((mpsl_fem_cleanup s).registry.countP fun e => decide (e.tag = Tag.lna)) = 0 ∧
    (mpsl_fem_cleanup s).registry = [] ∧
    (mpsl_fem_cleanup s).abortSt = AbortState.unset ∧
    (mpsl_fem_cleanup s).paGain = s.paGain ∧
    (mpsl_fem_cleanup s).enabled = s.enabled := by
  simp [mpsl_fem_cleanup]

/-- Claim C9: the power split operation is pure, deterministic and idempotent
with no side effects on the module state: the state after a call is the input
state, and a second call with the same power yields an identical result. -/
theorem tx_power_split_pure (profile : List TxPowerSplit) (power : Int) (s : FemState) :
    (mpsl_fem_tx_power_split profile power s).2 = s ∧
    (mpsl_fem_tx_power_split profile power
        (mpsl_fem_tx_power_split profile power s).2).1 =
      (mpsl_fem_tx_power_split profile power s).1 :=
  ⟨rfl, rfl⟩

/-- Claim C10: the functionality flags form a bitmask — `MPSL_FEM_PA` and
`MPSL_FEM_LNA` are the distinct single bits 1 and 2, `MPSL_FEM_ALL` is their
bitwise union, and every non-empty subset of the two functionalities is
representable as the bitwise or of the flags of its members. -/
theorem functionality_bitmask :
    MPSL_FEM_PA = 2 ^ 0 ∧ MPSL_FEM_LNA = 2 ^ 1 ∧
    MPSL_FEM_PA ≠ MPSL_FEM_LNA ∧
    MPSL_FEM_PA &&& MPSL_FEM_LNA = 0 ∧
    MPSL_FEM_ALL = MPSL_FEM_PA ||| MPSL_FEM_LNA ∧
    maskOfSet true false = MPSL_FEM_PA ∧
    maskOfSet false true = MPSL_FEM_LNA ∧
    maskOfSet true true = MPSL_FEM_ALL ∧
    MPSL_FEM_PA = 1 ∧ MPSL_FEM_LNA = 2 ∧ MPSL_FEM_ALL = 3 := by
  decide
